import Mathlib

/-!
Verification development for the `maptiles` package of nkovacs/go-mapnik.

The Go sources are shallowly embedded below.  Machine integers (`uint64`)
are modelled as `Nat` values; wherever the Go code can overflow or wrap,
the arithmetic is taken explicitly modulo `2 ^ 64` (constant `W`), and the
Go conversion `int(u)` of a `uint64` loop bound is modelled by
`intOfUint64` / `loopLen` (values at or above `2 ^ 63` reinterpret as
negative 64-bit ints, so the corresponding `for` loop runs zero times).
External collaborators (the mapnik renderer and the png codec) enter as
explicit environment parameters; goroutine channel sends become lists of
emitted values; `panic` becomes `Option.none`.
-/

namespace Maptiles

/-- Modulus of Go `uint64` arithmetic. -/
def W : Nat := 2 ^ 64

/-- Go conversion `int(u)` of a `uint64` value `u < 2^64` on a 64-bit
platform: values at or above `2 ^ 63` reinterpret as negative. -/
def intOfUint64 (n : Nat) : Int :=
  if n < 2 ^ 63 then (n : Int) else (n : Int) - (W : Int)

/-- Number of iterations of the Go loop `for i := 0; i < int(n); i++`
for a `uint64` bound `n`: a negative reinterpreted bound runs zero times. -/
def loopLen (n : Nat) : Nat := (intOfUint64 n).toNat

/-- Go struct `TileCoord` (tiles.go): `X, Y, Zoom uint64; Tms bool; Layer string`. -/
structure TileCoord where
  X : Nat
  Y : Nat
  Zoom : Nat
  Tms : Bool
  Layer : String
deriving DecidableEq

/-- Go struct `MetaTileCoord`. -/
structure MetaTileCoord where
  MinX : Nat
  MinY : Nat
  MaxX : Nat
  MaxY : Nat
  Zoom : Nat
  Tms : Bool
  Layer : String
deriving DecidableEq

/-- Go `(c *TileCoord) setTMS(tms bool)`: when the scheme changes,
`c.Y = (1 << c.Zoom) - c.Y - 1` in wrapping `uint64` arithmetic.  For
`Y < W` the Go value equals `(2^Zoom % W + W - Y - 1) % W` (the shift
`1 << Zoom` is itself truncated to 64 bits, hence the inner `% W`). -/
def TileCoord.setTMS (c : TileCoord) (tms : Bool) : TileCoord :=
  if c.Tms ≠ tms then
    { c with Y := (2 ^ c.Zoom % W + W - c.Y - 1) % W, Tms := tms }
  else c

/-- Go `(c *MetaTileCoord) setTMS(tms bool)`: negates `MinY` and `MaxY`
with the same wrapping formula, then swaps them. -/
def MetaTileCoord.setTMS (c : MetaTileCoord) (tms : Bool) : MetaTileCoord :=
  if c.Tms ≠ tms then
    { c with
      MinY := (2 ^ c.Zoom % W + W - c.MaxY - 1) % W,
      MaxY := (2 ^ c.Zoom % W + W - c.MinY - 1) % W,
      Tms := tms }
  else c

/-- Go `XSize() = c.MaxX - c.MinX + 1` in `uint64` arithmetic.  (The Go
method panics when `MaxX < MinX`; that panic is modelled at the call
sites that can reach it.) -/
def MetaTileCoord.XSize (c : MetaTileCoord) : Nat := (c.MaxX - c.MinX + 1) % W

/-- Go `YSize() = c.MaxY - c.MinY + 1` in `uint64` arithmetic. -/
def MetaTileCoord.YSize (c : MetaTileCoord) : Nat := (c.MaxY - c.MinY + 1) % W

/-- Go `Count() = c.XSize() * c.YSize()` in `uint64` arithmetic. -/
def MetaTileCoord.Count (c : MetaTileCoord) : Nat := c.XSize * c.YSize % W

/-- Go `(c *MetaTileCoord) TileCoords()`: nested loops
`for x := 0; x < int(xSize); x++ { for y := 0; y < int(ySize); y++ { append ... } }`,
each element built as `{X: c.MinX + uint64(x), Y: c.MinY + uint64(y), Zoom, Tms, Layer}`. -/
def MetaTileCoord.TileCoords (c : MetaTileCoord) : List TileCoord :=
  (List.range (loopLen c.XSize)).flatMap fun x =>
    (List.range (loopLen c.YSize)).map fun y =>
      { X := (c.MinX + x) % W, Y := (c.MinY + y) % W,
        Zoom := c.Zoom, Tms := c.Tms, Layer := c.Layer }

/-- Go struct `TileFetchResult`: `Coord TileCoord; BlobPNG []byte; Error error`.
A nil byte slice is `none`; a nil error is `none`. -/
structure TileFetchResult where
  Coord : TileCoord
  BlobPNG : Option (List Nat)
  Error : Option String
deriving DecidableEq

/-- Exclusivity invariant on a `TileFetchResult`: either the bytes are
absent (nil), or the error is absent (nil) — never both present. -/
def exclusiveOk (r : TileFetchResult) : Prop :=
  r.BlobPNG = none ∨ r.Error = none

/-- Go `(t *TileRenderer) processRequestTile(coord, outchan)`: the renderer
call `t.RenderTile(coord)` is external, so its raw outcome — the returned
byte slice and the returned error — enters as the parameters `blob` and
`err`.  The function starts from `TileFetchResult{coord, nil, nil}`,
stores the rendered bytes, and on a non-nil error resets `BlobPNG` to nil
and records the error.  The returned value is the single result sent on
`outchan`. -/
def processRequestTile (coord : TileCoord) (blob : Option (List Nat))
    (err : Option String) : TileFetchResult :=
  match err with
  | some e => { Coord := coord, BlobPNG := none, Error := some e }
  | none => { Coord := coord, BlobPNG := blob, Error := none }

/-- Outcomes of the external collaborators used by
`(t *TileRenderer) RenderMetaTile` for one call:
`render` is the outcome of `t.renderTileInternal` (the native mapnik
render), `decode` the outcome of `png.Decode` on a given blob,
`hasSubImage` whether the decoded image implements `SubImager`, and
`encodeTile x y` the outcome of `png.Encode` of the `(x, y)` sub-image
into a fresh `bytes.Buffer`.  The standard-library png encoder writing to
an in-memory buffer either emits the complete encoding and returns a nil
error, or fails its size validation before writing any byte (so the
buffer's `Bytes()` is still nil in the error case); `encodeTile` records
exactly that alternative. -/
structure MetaRenderEnv where
  render : Except String (List Nat)
  decode : List Nat → Except String Unit
  hasSubImage : Bool
  encodeTile : Nat → Nat → Except String (List Nat)

/-- Go `(t *TileRenderer) RenderMetaTile(c MetaTileCoord)`: converts the
(value-copied) coordinate to the XYZ scheme, rejects inverted rectangles,
renders the whole block, short-circuits the 1×1 case, otherwise decodes
the block image and slices it with the nested
`for x ... { for y ... }` loops, pairing each sub-tile's encoder output
and encoder error into a `TileFetchResult`. -/
def RenderMetaTile (env : MetaRenderEnv) (c0 : MetaTileCoord) :
    Except String (List TileFetchResult) :=
  let c := c0.setTMS false
  if c.MaxX < c.MinX ∨ c.MaxY < c.MinY then
    Except.error "Invalid metatile coordinates"
  else
    match env.render with
    | Except.error e => Except.error e
    | Except.ok blob =>
      if c.XSize = 1 ∧ c.YSize = 1 then
        Except.ok [{ Coord := { X := c.MinX, Y := c.MinY, Zoom := c.Zoom,
                                Tms := c.Tms, Layer := c.Layer },
                     BlobPNG := some blob, Error := none }]
      else
        match env.decode blob with
        | Except.error e => Except.error e
        | Except.ok _ =>
          if ¬ env.hasSubImage then
            Except.error "Decoded image type does not have SubImage method"
          else
            Except.ok ((List.range (loopLen c.XSize)).flatMap fun x =>
              (List.range (loopLen c.YSize)).map fun y =>
                match env.encodeTile x y with
                | Except.ok b =>
                  { Coord := { X := (c.MinX + x) % W, Y := (c.MinY + y) % W,
                               Zoom := c.Zoom, Tms := c.Tms, Layer := c.Layer },
                    BlobPNG := some b, Error := none }
                | Except.error e =>
                  { Coord := { X := (c.MinX + x) % W, Y := (c.MinY + y) % W,
                               Zoom := c.Zoom, Tms := c.Tms, Layer := c.Layer },
                    BlobPNG := none, Error := some e })

/-- Go `(t *TileRenderer) processRequestMeta(coord, outchan)`: `none`
models a panic (nothing sent on `outchan`); `some rs` models sending
exactly the list `rs` on `outchan`, in order.  The leading guard models
the panic inside `coord.Count()` (via `XSize`/`YSize`) for an inverted
rectangle.  On a renderer error the per-coordinate replication loop
mirrors the source's nested loops; on success the length check compares
the Go `int` length against `int(resultCount)`. -/
def processRequestMeta (env : MetaRenderEnv) (coord : MetaTileCoord) :
    Option (List TileFetchResult) :=
  if coord.MaxX < coord.MinX ∨ coord.MaxY < coord.MinY then
    none
  else
    match RenderMetaTile env coord with
    | Except.error e =>
      some ((List.range (loopLen coord.XSize)).flatMap fun x =>
        (List.range (loopLen coord.YSize)).map fun y =>
          { Coord := { X := (coord.MinX + x) % W, Y := (coord.MinY + y) % W,
                       Zoom := coord.Zoom, Tms := coord.Tms,
                       Layer := coord.Layer },
            BlobPNG := none, Error := some e })
    | Except.ok results =>
      if (results.length : Int) ≠ intOfUint64 coord.Count then none
      else some results

/-- Request submitted to the `LayerMultiplex` (only the layer name and an
identity for the reply channel matter to `SubmitRequest`). -/
structure MultiplexReq where
  layer : String
  chanId : Nat
deriving DecidableEq

/-- Go struct `LayerMultiplex`: the map `layerChans map[string]chan<- ...`
is modelled as an association list from layer name to the queue of
requests so far sent into that layer's channel (map keys are unique). -/
structure LayerMultiplex where
  layerChans : List (String × List MultiplexReq)
deriving DecidableEq

/-- Go `(l LayerMultiplex) SubmitRequest(r) bool`: looks the layer up in
the map; if found, sends the request into that channel (modelled by
appending it to the layer's queue) and returns true; otherwise only logs
and returns false, leaving every queue untouched. -/
def LayerMultiplex.SubmitRequest (l : LayerMultiplex) (r : MultiplexReq) :
    LayerMultiplex × Bool :=
  match l.layerChans.find? (fun p => p.1 == r.layer) with
  | some _ =>
    ({ layerChans := l.layerChans.map fun p =>
        if p.1 == r.layer then (p.1, p.2 ++ [r]) else p }, true)
  | none => (l, false)

/-- Model of the md5 hex digest `fmt.Sprintf("%x", md5.Sum(b))` computed
by the cache: a deterministic, content-determined key.  The digest is
modelled injectively by the content itself (collisions of the real hash
are ignored; the claims below only use that identical content yields the
identical key). -/
def checksum (b : List Nat) : List Nat := b

/-- Go struct `TileDb`, modelled by the contents of its SQLite store:
`layers` is the `layers` table (`layer_name` primary key → `rowid`),
`tiles` the `layered_tiles` table (primary key
`(layer_id, zoom_level, tile_column, tile_row)` → `checksum`), and
`blobs` the `tile_blobs` table — which has NO primary key or unique
constraint, so it is a bare list of rows `(checksum, tile_data)` that can
hold duplicates; a NULL `tile_data` is `none`.  The struct's channels and
locks are concurrency plumbing and are not part of the state. -/
structure TileDb where
  layers : List (String × Nat)
  tiles : List ((Nat × Nat × Nat × Nat) × List Nat)
  blobs : List (List Nat × Option (List Nat))
deriving DecidableEq

/-- SQL `SELECT rowid FROM layers WHERE layer_name=l` (also the in-memory
map `m.layerIds[l]` that `readLayers` mirrors from this table). -/
def TileDb.lookupLayer (m : TileDb) (l : String) : Option Nat :=
  (m.layers.find? (fun p => p.1 == l)).map (·.2)

/-- Go `(m *TileDb) ensureLayer(layer)`: if the layer is unknown, insert
it and reload the registry.  The fresh SQLite `rowid` is modelled as one
past the current row count. -/
def TileDb.ensureLayer (m : TileDb) (l : String) : TileDb :=
  if (m.lookupLayer l).isSome then m
  else { m with layers := m.layers ++ [(l, m.layers.length + 1)] }

/-- SQL `REPLACE INTO layered_tiles VALUES(lid, z, x, y, s)`: the table's
primary key makes this an upsert on `(layer_id, zoom, column, row)`. -/
def upsertTile (ts : List ((Nat × Nat × Nat × Nat) × List Nat))
    (k : Nat × Nat × Nat × Nat) (s : List Nat) :
    List ((Nat × Nat × Nat × Nat) × List Nat) :=
  ts.filter (fun p => ¬ p.1 == k) ++ [(k, s)]

/-- SQL `SELECT 1 FROM tile_blobs WHERE checksum=s` succeeding. -/
def TileDb.blobExists (m : TileDb) (s : List Nat) : Bool :=
  m.blobs.any (fun p => p.1 == s)

/-- SQL `SELECT tile_data FROM tile_blobs WHERE checksum=s` through
`QueryRow` (first matching row); `some none` is a row whose `tile_data`
is NULL, which `Scan` turns into a nil byte slice without error. -/
def TileDb.findBlob (m : TileDb) (s : List Nat) : Option (Option (List Nat)) :=
  (m.blobs.find? (fun p => p.1 == s)).map (·.2)

/-- Empty layer names fall back to the reserved `"default"` layer. -/
def defaultLayer (l : String) : String := if l = "" then "default" else l

/-- Number of rows of the `tile_blobs` table carrying a given checksum
(`SELECT count(*) FROM tile_blobs WHERE checksum=s`). -/
def blobCount (m : TileDb) (s : List Nat) : Nat :=
  (m.blobs.filter fun p => p.1 == s).length

/-- Well-formedness of the blob table: every row stores non-NULL bytes
whose digest is the row's checksum key (with the injective digest model,
the stored bytes equal the key). -/
def blobWF (m : TileDb) : Prop := ∀ p ∈ m.blobs, p.2 = some p.1

/-- Go `(m *TileDb) insert(i TileFetchResult)`: toggles the (value-copied)
coordinate to TMS, defaults the layer, computes the md5 digest of the
bytes, inserts the blob row only when no row with that checksum exists,
ensures the layer, and upserts the tile record. -/
def TileDb.insert (m : TileDb) (i : TileFetchResult) : TileDb :=
  let coord := i.Coord.setTMS true
  let l := defaultLayer coord.Layer
  let s := checksum (i.BlobPNG.getD [])
  let m1 := if m.blobExists s then m else { m with blobs := m.blobs ++ [(s, i.BlobPNG)] }
  let m2 := m1.ensureLayer l
  let lid := (m2.lookupLayer l).getD 0
  { m2 with tiles := upsertTile m2.tiles (lid, coord.Zoom, coord.X, coord.Y) s }

/-- Go `(m *TileDb) BatchInsert(inserts)`: every item's goroutine toggles
its coordinate, defaults its layer, computes its digest, ensures its
layer, and checks blob existence — all existence checks read the
pre-batch `tile_blobs` table, because the batch's own inserts only run
after `wg.Wait()`.  Then one multi-row `REPLACE INTO tile_blobs` appends
every "new" blob row (the table has no unique constraint, so duplicated
checksums within the batch all land), and one multi-row
`REPLACE INTO layered_tiles` upserts the tile records in order.  The
goroutines' completion order is nondeterministic; the slice order is used
here (the facts proved below do not depend on it). -/
def TileDb.BatchInsert (m : TileDb) (inserts : List TileFetchResult) : TileDb :=
  let items := inserts.map fun i =>
    let coord := i.Coord.setTMS true
    (coord, defaultLayer coord.Layer, checksum (i.BlobPNG.getD []), i.BlobPNG)
  let m1 := items.foldl (fun acc it => acc.ensureLayer it.2.1) m
  let newBlobs := (items.filter fun it => ¬ m.blobExists it.2.2.1).map
    fun it => (it.2.2.1, it.2.2.2)
  let m2 := { m1 with blobs := m1.blobs ++ newBlobs }
  items.foldl
    (fun acc it =>
      { acc with tiles :=
          upsertTile acc.tiles ((m1.lookupLayer it.2.1).getD 0, it.1.Zoom, it.1.X, it.1.Y) it.2.2.1 })
    m2

/-- Go `(m *TileDb) fetch(r TileFetchRequest)`: toggles the (value-copied)
request coordinate to TMS, defaults the layer, and runs the nested query
`SELECT tile_data FROM tile_blobs WHERE checksum=(SELECT checksum FROM
layered_tiles WHERE ... AND layer_id=(SELECT rowid FROM layers ...))`.
A missing layer, a missing tile record, or a missing blob row all make
the outer query return zero rows, which `Scan` reports as
`sql.ErrNoRows` — the plain-miss branch.  The returned value is the
result sent on `r.OutChan`; note that its `Coord` field is built from
the already-toggled local copy.  (Driver/scan failures, the only source
of a non-nil `Error`, are not modelled.) -/
def TileDb.fetch (m : TileDb) (reqCoord : TileCoord) : TileFetchResult :=
  let coord := reqCoord.setTMS true
  let l := defaultLayer coord.Layer
  let q : Option (Option (List Nat)) :=
    match m.lookupLayer l with
    | none => none
    | some lid =>
      match (m.tiles.find? (fun p => p.1 == (lid, coord.Zoom, coord.X, coord.Y))).map (·.2) with
      | none => none
      | some s => m.findBlob s
  match q with
  | none => { Coord := coord, BlobPNG := none, Error := none }
  | some v => { Coord := coord, BlobPNG := v, Error := none }

deriving instance DecidableEq for Except

/-- Observable steps of `(t *TileServer) ServeTileRequest`. -/
inductive ServeEvent where
  | cacheFetch (c : TileCoord)
  | submit (c : TileCoord)
  | notFound
  | writePng (b : List Nat)
  | cacheInsert (r : TileFetchResult)
deriving DecidableEq

/-- Go `(t *TileServer) ServeTileRequest(w, r, tc)` as the ordered list of
its observable actions.  `cacheConfigured` is `t.m != nil`; `cacheReply`
is the result the `TileDb` fetch delivers on `ch` (consumed only when a
cache is configured; otherwise `result` stays the zero value);
`renderReply` is the reply received after submitting to the multiplexer
(the model assumes a worker replies; an unregistered layer never replies,
see `SubmitRequest`).  A hit is `result.BlobPNG != nil`; on a miss the
original request is submitted, a nil-byte reply becomes `http.NotFound`,
and a rendered reply is written to the client and then — only then —
queued for cache insertion. -/
def ServeTileRequest (cacheConfigured : Bool) (tc : TileCoord)
    (cacheReply renderReply : TileFetchResult) : List ServeEvent :=
  let fetchEvents := if cacheConfigured then [ServeEvent.cacheFetch tc] else []
  let result := if cacheConfigured then cacheReply
    else { Coord := { X := 0, Y := 0, Zoom := 0, Tms := false, Layer := "" },
           BlobPNG := none, Error := none }
  if ¬ cacheConfigured ∨ result.BlobPNG = none then
    match renderReply.BlobPNG with
    | none => fetchEvents ++ [ServeEvent.submit tc, ServeEvent.notFound]
    | some b =>
      fetchEvents ++ [ServeEvent.submit tc, ServeEvent.writePng b] ++
        (if cacheConfigured then [ServeEvent.cacheInsert renderReply] else [])
  else
    fetchEvents ++ [ServeEvent.writePng (result.BlobPNG.getD [])]

/-! ### Helper lemmas -/

theorem loopLen_eq {n : Nat} (h : n < 2 ^ 63) : loopLen n = n := by
  simp only [loopLen, intOfUint64]
  rw [if_pos h]
  simp

theorem length_grid {α : Type} (f : Nat → Nat → α) (n m : Nat) :
    ((List.range n).flatMap fun x => (List.range m).map (f x)).length = n * m := by
  rw [List.length_flatMap]
  have hmap : List.map (List.length ∘ fun x => (List.range m).map (f x)) (List.range n)
      = List.replicate n m := by
    have : (List.length ∘ fun x => (List.range m).map (f x)) = Function.const Nat m := by
      funext x; simp
    rw [this, List.map_const, List.length_range]
  rw [hmap, List.sum_replicate, smul_eq_mul]

theorem getElem_grid {α : Type} (f : Nat → Nat → α) :
    ∀ (n : Nat) {m i : Nat}, i < n * m →
      ((List.range n).flatMap fun x => (List.range m).map (f x))[i]? =
        some (f (i / m) (i % m)) := by
  intro n
  induction n with
  | zero => intro m i h; simp at h
  | succ k ih =>
    intro m i h
    rw [List.range_succ, List.flatMap_append, List.getElem?_append]
    have hlen : ((List.range k).flatMap fun x => (List.range m).map (f x)).length = k * m :=
      length_grid f k m
    by_cases hi : i < k * m
    · rw [if_pos (by rw [hlen]; exact hi)]
      exact ih hi
    · rw [if_neg (by rw [hlen]; exact hi)]
      have hm : 0 < m := by
        rcases Nat.eq_zero_or_pos m with hm0 | hm0
        · subst hm0; omega
        · exact hm0
      have hub : i < (k + 1) * m := h
      have hdiv : i / m = k := Nat.div_eq_of_lt_le (by omega) hub
      have hmod : i % m = i - k * m := by
        have hmd := Nat.mod_add_div i m
        rw [hdiv] at hmd
        have hcm : m * k = k * m := Nat.mul_comm m k
        omega
      have hsub : i - k * m < m := by
        have : (k + 1) * m = k * m + m := by ring
        omega
      simp only [List.flatMap_cons, List.flatMap_nil, List.append_nil]
      rw [hlen, List.getElem?_map, List.getElem?_range hsub, hdiv, hmod]
      rfl

theorem W_pos : 0 < W := by norm_num [W]

theorem W_val : W = 18446744073709551616 := by norm_num [W]

/-- If a metatile's `XSize` is positive, the `uint64` subtraction did not
wrap, so `XSize` is the true width `MaxX - MinX + 1`. -/
theorem XSize_eq {c : MetaTileCoord} (hw : c.MaxX < W) (hpos : 0 < c.XSize) :
    c.XSize = c.MaxX - c.MinX + 1 := by
  have hle : c.MaxX - c.MinX + 1 ≤ W := by omega
  rcases Nat.lt_or_ge (c.MaxX - c.MinX + 1) W with hlt | hge
  · exact Nat.mod_eq_of_lt hlt
  · have : c.MaxX - c.MinX + 1 = W := le_antisymm hle hge
    have : c.XSize = 0 := by
      simp [MetaTileCoord.XSize, this]
    omega

/-- If a metatile's `YSize` is positive, the `uint64` subtraction did not
wrap, so `YSize` is the true height `MaxY - MinY + 1`. -/
theorem YSize_eq {c : MetaTileCoord} (hw : c.MaxY < W) (hpos : 0 < c.YSize) :
    c.YSize = c.MaxY - c.MinY + 1 := by
  have hle : c.MaxY - c.MinY + 1 ≤ W := by omega
  rcases Nat.lt_or_ge (c.MaxY - c.MinY + 1) W with hlt | hge
  · exact Nat.mod_eq_of_lt hlt
  · have : c.MaxY - c.MinY + 1 = W := le_antisymm hle hge
    have : c.YSize = 0 := by
      simp [MetaTileCoord.YSize, this]
    omega

/-- Length of `TileCoords()`: the product of the two loop iteration
counts (each loop bound passes through the Go `int(...)` conversion). -/
theorem tileCoords_length (c : MetaTileCoord) :
    c.TileCoords.length = loopLen c.XSize * loopLen c.YSize :=
  length_grid _ _ _

/-! ### C1 -/

/-- C1 (amended): for a metatile whose rectangle is well ordered, whose
corner coordinates are `uint64` values, and whose sizes fit a signed
64-bit int with a product below `2 ^ 64` (so neither the `int(...)` loop
conversions nor the `uint64` product in `Count()` wrap), `Count()` equals
the true product `XSize()×YSize()`, which equals the length of
`TileCoords()`; `TileCoords()` enumerates the tiles in column-major
ascending order (element `i` is `(MinX + i / YSize, MinY + i % YSize)`),
each inheriting the metatile's `Zoom`, scheme flag and `Layer`; and the
concrete metatile `MinX=1, MinY=1, MaxX=2, MaxY=2, Zoom=3` decomposes
into `(1,1),(1,2),(2,1),(2,2)` in that order. -/
theorem c1_enumeration (c : MetaTileCoord)
    (hord1 : c.MinX ≤ c.MaxX) (hord2 : c.MinY ≤ c.MaxY)
    (hxw : c.MaxX < W) (hyw : c.MaxY < W)
    (hxs : c.XSize < 2 ^ 63) (hys : c.YSize < 2 ^ 63)
    (hprod : c.XSize * c.YSize < W) :
    c.Count = c.XSize * c.YSize ∧
    c.TileCoords.length = c.XSize * c.YSize ∧
    (∀ i, i < c.XSize * c.YSize →
      c.TileCoords[i]? = some { X := c.MinX + i / c.YSize, Y := c.MinY + i % c.YSize,
                                Zoom := c.Zoom, Tms := c.Tms, Layer := c.Layer }) ∧
    MetaTileCoord.TileCoords { MinX := 1, MinY := 1, MaxX := 2, MaxY := 2,
                               Zoom := 3, Tms := false, Layer := "" } =
      [{ X := 1, Y := 1, Zoom := 3, Tms := false, Layer := "" },
       { X := 1, Y := 2, Zoom := 3, Tms := false, Layer := "" },
       { X := 2, Y := 1, Zoom := 3, Tms := false, Layer := "" },
       { X := 2, Y := 2, Zoom := 3, Tms := false, Layer := "" }] := by
  refine ⟨Nat.mod_eq_of_lt hprod, ?_, ?_, by decide⟩
  · rw [tileCoords_length, loopLen_eq hxs, loopLen_eq hys]
  · intro i hi
    have hprod0 : c.XSize * c.YSize ≠ 0 := by omega
    have hx0 : 0 < c.XSize := Nat.pos_of_ne_zero (fun h0 => hprod0 (by rw [h0, zero_mul]))
    have hy0 : 0 < c.YSize := Nat.pos_of_ne_zero (fun h0 => hprod0 (by rw [h0, mul_zero]))
    have hiLoop : i < loopLen c.XSize * loopLen c.YSize := by
      rw [loopLen_eq hxs, loopLen_eq hys]; exact hi
    unfold MetaTileCoord.TileCoords
    rw [getElem_grid _ _ hiLoop, loopLen_eq hys]
    have hXv := XSize_eq hxw hx0
    have hYv := YSize_eq hyw hy0
    have hdivlt : i / c.YSize < c.XSize := (Nat.div_lt_iff_lt_mul hy0).mpr hi
    have hmodlt : i % c.YSize < c.YSize := Nat.mod_lt _ hy0
    have hXb : c.MinX + i / c.YSize < W := by omega
    have hYb : c.MinY + i % c.YSize < W := by omega
    rw [Nat.mod_eq_of_lt hXb, Nat.mod_eq_of_lt hYb]

/-- C1 counterexample: the metatile `MinX=0, MinY=0, MaxX=2^63, MaxY=1,
Zoom=0` satisfies the claim's hypotheses (`MaxX ≥ MinX`, `MaxY ≥ MinY`),
and in Go it executes without panicking (the slice capacity
`xSize*ySize` wraps to 2), yet `Count()` is 2 while `TileCoords()` is
empty — `int(xSize)` reinterprets `2^63 + 1` as a negative loop bound. -/
theorem c1_counterexample :
    (⟨0, 0, 2 ^ 63, 1, 0, false, ""⟩ : MetaTileCoord).MinX ≤
      (⟨0, 0, 2 ^ 63, 1, 0, false, ""⟩ : MetaTileCoord).MaxX ∧
    (⟨0, 0, 2 ^ 63, 1, 0, false, ""⟩ : MetaTileCoord).MinY ≤
      (⟨0, 0, 2 ^ 63, 1, 0, false, ""⟩ : MetaTileCoord).MaxY ∧
    (⟨0, 0, 2 ^ 63, 1, 0, false, ""⟩ : MetaTileCoord).Count = 2 ∧
    (⟨0, 0, 2 ^ 63, 1, 0, false, ""⟩ : MetaTileCoord).TileCoords = [] ∧
    ¬ (⟨0, 0, 2 ^ 63, 1, 0, false, ""⟩ : MetaTileCoord).Count =
        (⟨0, 0, 2 ^ 63, 1, 0, false, ""⟩ : MetaTileCoord).TileCoords.length := by
  decide

/-- C1 witness: the amended theorem applied to the concrete metatile
`MinX=1, MinY=1, MaxX=2, MaxY=2, Zoom=3`. -/
theorem c1_witness :
    (⟨1, 1, 2, 2, 3, false, ""⟩ : MetaTileCoord).Count = 4 ∧
    (⟨1, 1, 2, 2, 3, false, ""⟩ : MetaTileCoord).TileCoords.length = 4 ∧
    (⟨1, 1, 2, 2, 3, false, ""⟩ : MetaTileCoord).TileCoords[2]? =
      some { X := 2, Y := 1, Zoom := 3, Tms := false, Layer := "" } := by
  have h := c1_enumeration ⟨1, 1, 2, 2, 3, false, ""⟩ (by decide) (by decide)
    (by decide) (by decide) (by decide) (by decide) (by decide)
  refine ⟨?_, ?_, ?_⟩
  · rw [h.1]; decide
  · rw [h.2.1]; decide
  · have h2 := h.2.2.1 2 (by decide)
    rw [h2]; decide

/-! ### C7 -/

/-- The truncated Go shift `1 << z` on `uint64`: below 64 it is exact and
fits, at 64 and above every bit is shifted out. -/
theorem pow_mod_W (z : Nat) :
    (2 ^ z < W ∧ 2 ^ z % W = 2 ^ z) ∨ 2 ^ z % W = 0 := by
  by_cases h : z < 64
  · left
    have hlt : 2 ^ z < W := by
      have := Nat.pow_lt_pow_right (by norm_num : 1 < 2) h
      simpa [W] using this
    exact ⟨hlt, Nat.mod_eq_of_lt hlt⟩
  · right
    obtain ⟨k, hk⟩ : W ∣ 2 ^ z := by
      refine ⟨2 ^ (z - 64), ?_⟩
      rw [W, ← pow_add]
      congr 1
      omega
    rw [hk]
    exact Nat.mul_mod_right W k

/-- The wrapping row transform `(A + W - y - 1) % W` is an involution on
`uint64` values, for any truncated shift value `A < W`. -/
theorem rowFlip_invol {A Y : Nat} (hA : A < W) (hY : Y < W) :
    (A + W - (A + W - Y - 1) % W - 1) % W = Y := by
  rcases Nat.lt_or_ge (A + W - Y - 1) W with h | h
  · rw [Nat.mod_eq_of_lt h]
    have h2 : A + W - (A + W - Y - 1) - 1 = Y := by omega
    rw [h2, Nat.mod_eq_of_lt hY]
  · have h1 : A + W - Y - 1 = W + (A - Y - 1) := by omega
    rw [h1, Nat.add_mod_left, Nat.mod_eq_of_lt (by omega : A - Y - 1 < W)]
    have h2 : A + W - (A - Y - 1) - 1 = W + Y := by omega
    rw [h2, Nat.add_mod_left, Nat.mod_eq_of_lt hY]

/-- The wrapping row transform agrees with the plain flip formula when
the row lies below the (untruncated) shift value. -/
theorem rowFlip_eq {A Y : Nat} (hA : A < W) (hY : Y < A) :
    (A + W - Y - 1) % W = A - Y - 1 := by
  have h1 : A + W - Y - 1 = W + (A - Y - 1) := by omega
  rw [h1, Nat.add_mod_left, Nat.mod_eq_of_lt (by omega)]

/-- The wrapping row transform when the shift truncated to zero
(`Zoom ≥ 64`). -/
theorem rowFlip0_eq {Y : Nat} (hY : Y < W) : (0 + W - Y - 1) % W = W - Y - 1 := by
  have hp := W_pos
  rw [Nat.mod_eq_of_lt (by omega)]
  omega

/-- C7 (amended): `setTMS` is idempotent at a fixed target scheme and
involutive for every `uint64` coordinate (the wrapping arithmetic is an
involution modulo `2 ^ 64` even for rows at or above `2 ^ Zoom`); the
block conversion negates `MinY`/`MaxY` and swaps them, which preserves
`MinY ≤ MaxY` — and agrees with the plain formula `2^Zoom − row − 1` —
provided the rows lie below `2 ^ Zoom` (for rows outside that range the
`uint64` subtraction wraps and the order can invert). -/
theorem c7_conversion (c : TileCoord) (m : MetaTileCoord) (tms : Bool)
    (hcY : c.Y < W) (hm1 : m.MinY < W) (hm2 : m.MaxY < W) :
    (c.setTMS tms).setTMS tms = c.setTMS tms ∧
    (c.setTMS (!c.Tms)).setTMS c.Tms = c ∧
    (m.setTMS tms).setTMS tms = m.setTMS tms ∧
    (m.setTMS (!m.Tms)).setTMS m.Tms = m ∧
    (m.MinY ≤ m.MaxY → m.MaxY < 2 ^ m.Zoom →
      (m.setTMS tms).MinY ≤ (m.setTMS tms).MaxY) ∧
    (m.MinY ≤ m.MaxY → m.MaxY < 2 ^ m.Zoom → m.Zoom < 64 → m.Tms ≠ tms →
      (m.setTMS tms).MinY = 2 ^ m.Zoom - m.MaxY - 1 ∧
      (m.setTMS tms).MaxY = 2 ^ m.Zoom - m.MinY - 1) := by
  obtain ⟨X, Y, Z, T, L⟩ := c
  obtain ⟨nX, nY, xX, xY, mZ, mT, mL⟩ := m
  have hcY : Y < W := hcY
  have hm1 : nY < W := hm1
  have hm2 : xY < W := hm2
  have hAt : 2 ^ Z % W < W := Nat.mod_lt _ W_pos
  have hAm : 2 ^ mZ % W < W := Nat.mod_lt _ W_pos
  refine ⟨?_, ?_, ?_, ?_, ?_, ?_⟩
  · simp only [TileCoord.setTMS]
    split <;> simp_all
  · have hne : T ≠ !T := by cases T <;> simp
    have hne2 : (!T) ≠ T := by cases T <;> simp
    simp only [TileCoord.setTMS, if_pos hne]
    simp only [if_pos hne2]
    rw [rowFlip_invol hAt hcY]
  · simp only [MetaTileCoord.setTMS]
    split <;> simp_all
  · have hne : mT ≠ !mT := by cases mT <;> simp
    have hne2 : (!mT) ≠ mT := by cases mT <;> simp
    simp only [MetaTileCoord.setTMS, if_pos hne]
    simp only [if_pos hne2]
    rw [rowFlip_invol hAm hm1, rowFlip_invol hAm hm2]
  · intro hord hin
    have hord : nY ≤ xY := hord
    have hin : xY < 2 ^ mZ := hin
    by_cases hne : mT ≠ tms
    · simp only [MetaTileCoord.setTMS, if_pos hne]
      rcases pow_mod_W mZ with ⟨hlt, heq⟩ | heq
      · simp only [heq]
        rw [rowFlip_eq hlt hin, rowFlip_eq hlt (lt_of_le_of_lt hord hin)]
        omega
      · simp only [heq]
        rw [rowFlip0_eq hm2, rowFlip0_eq hm1]
        omega
    · simp only [MetaTileCoord.setTMS, if_neg hne]
      exact hord
  · intro hord hin hz64 hne
    have hord : nY ≤ xY := hord
    have hin : xY < 2 ^ mZ := hin
    simp only [MetaTileCoord.setTMS, if_pos hne]
    have hlt : 2 ^ mZ < W := by
      have := Nat.pow_lt_pow_right (by norm_num : 1 < 2) hz64
      simpa [W] using this
    have heq : 2 ^ mZ % W = 2 ^ mZ := Nat.mod_eq_of_lt hlt
    constructor
    · simp only [heq]
      exact rowFlip_eq hlt hin
    · simp only [heq]
      exact rowFlip_eq hlt (lt_of_le_of_lt hord hin)

/-- C7 counterexample: the metatile `MinY=0, MaxY=1` at `Zoom=0` has
`MinY ≤ MaxY`, but converting it to TMS wraps the `uint64` subtraction
and yields `MinY = 2^64 − 1 > MaxY = 0`: the order is not preserved. -/
theorem c7_counterexample :
    (⟨0, 0, 0, 1, 0, false, ""⟩ : MetaTileCoord).MinY ≤
      (⟨0, 0, 0, 1, 0, false, ""⟩ : MetaTileCoord).MaxY ∧
    ¬ ((⟨0, 0, 0, 1, 0, false, ""⟩ : MetaTileCoord).setTMS true).MinY ≤
        ((⟨0, 0, 0, 1, 0, false, ""⟩ : MetaTileCoord).setTMS true).MaxY := by
  decide

/-- C7 witness: the amended theorem applied to the tile `(0,5)@3` and the
metatile `MinX=1, MinY=1, MaxX=2, MaxY=2, Zoom=3`. -/
theorem c7_witness :
    (((⟨0, 5, 3, false, "x"⟩ : TileCoord).setTMS true).setTMS false =
      ⟨0, 5, 3, false, "x"⟩) ∧
    (((⟨1, 1, 2, 2, 3, false, ""⟩ : MetaTileCoord).setTMS true).setTMS false =
      ⟨1, 1, 2, 2, 3, false, ""⟩) ∧
    ((⟨1, 1, 2, 2, 3, false, ""⟩ : MetaTileCoord).setTMS true).MinY ≤
      ((⟨1, 1, 2, 2, 3, false, ""⟩ : MetaTileCoord).setTMS true).MaxY ∧
    ((⟨1, 1, 2, 2, 3, false, ""⟩ : MetaTileCoord).setTMS true).MinY = 5 := by
  have h := c7_conversion ⟨0, 5, 3, false, "x"⟩ ⟨1, 1, 2, 2, 3, false, ""⟩ true
    (by decide) (by decide) (by decide)
  refine ⟨h.2.1, h.2.2.2.1, h.2.2.2.2.1 (by decide) (by decide), ?_⟩
  rw [(h.2.2.2.2.2 (by decide) (by decide) (by decide) (by decide)).1]
  decide

/-! ### C2 -/

/-- C2 (amended): when the block render of a well-ordered metatile
request returns an error, the worker emits one `TileFetchResult` per
coordinate of `TileCoords()`, in the same column-major order, each
carrying that same error and nil bytes; the number of emitted results
equals `Count()` whenever the sizes fit a signed 64-bit int and their
product stays below `2 ^ 64` (outside that range `Count()` wraps while
the replication loops do not run that many times). -/
theorem c2_error_replication (env : MetaRenderEnv) (coord : MetaTileCoord) (e : String)
    (hv1 : coord.MinX ≤ coord.MaxX) (hv2 : coord.MinY ≤ coord.MaxY)
    (hr : RenderMetaTile env coord = Except.error e) :
    processRequestMeta env coord =
      some (coord.TileCoords.map fun tc =>
        { Coord := tc, BlobPNG := none, Error := some e }) ∧
    (coord.XSize < 2 ^ 63 → coord.YSize < 2 ^ 63 → coord.XSize * coord.YSize < W →
      (coord.TileCoords.map fun tc =>
        ({ Coord := tc, BlobPNG := none, Error := some e } : TileFetchResult)).length =
        coord.Count) := by
  have hguard : ¬ (coord.MaxX < coord.MinX ∨ coord.MaxY < coord.MinY) := by
    simp only [not_or]
    exact ⟨Nat.not_lt.mpr hv1, Nat.not_lt.mpr hv2⟩
  constructor
  · simp only [processRequestMeta, hguard, if_false, hr, MetaTileCoord.TileCoords,
      List.map_flatMap, List.map_map]
    rfl
  · intro hxs hys hprod
    rw [List.length_map, tileCoords_length, loopLen_eq hxs, loopLen_eq hys]
    exact (Nat.mod_eq_of_lt hprod).symm

/-- C2 counterexample: for the metatile `MinX=0, MinY=0, MaxX=2^63,
MaxY=1, Zoom=5` (well ordered, executable in Go) with a failing block
render, the worker emits zero results on the reply channel although
`Count()` is 2 — the replication loop bound `int(xSize)` reinterprets
`2^63 + 1` as negative. -/
theorem c2_counterexample :
    RenderMetaTile
        ⟨Except.error "boom", fun _ => Except.ok (), true, fun _ _ => Except.ok []⟩
        ⟨0, 0, 2 ^ 63, 1, 5, false, ""⟩ = Except.error "boom" ∧
    processRequestMeta
        ⟨Except.error "boom", fun _ => Except.ok (), true, fun _ _ => Except.ok []⟩
        ⟨0, 0, 2 ^ 63, 1, 5, false, ""⟩ = some [] ∧
    (⟨0, 0, 2 ^ 63, 1, 5, false, ""⟩ : MetaTileCoord).Count = 2 := by
  refine ⟨by decide, by decide, by decide⟩

/-- C2 witness: the amended theorem applied to a failing block render of
the 2×2 metatile at zoom 3. -/
theorem c2_witness :
    processRequestMeta
        ⟨Except.error "boom", fun _ => Except.ok (), true, fun _ _ => Except.ok []⟩
        ⟨1, 1, 2, 2, 3, false, "l"⟩ =
      some ((⟨1, 1, 2, 2, 3, false, "l"⟩ : MetaTileCoord).TileCoords.map fun tc =>
        { Coord := tc, BlobPNG := none, Error := some "boom" }) ∧
    ((⟨1, 1, 2, 2, 3, false, "l"⟩ : MetaTileCoord).TileCoords.map fun tc =>
      ({ Coord := tc, BlobPNG := none, Error := some "boom" } : TileFetchResult)).length =
      (⟨1, 1, 2, 2, 3, false, "l"⟩ : MetaTileCoord).Count := by
  have h := c2_error_replication
    ⟨Except.error "boom", fun _ => Except.ok (), true, fun _ _ => Except.ok []⟩
    ⟨1, 1, 2, 2, 3, false, "l"⟩ "boom" (by decide) (by decide) (by decide)
  exact ⟨h.1, h.2 (by decide) (by decide) (by decide)⟩

/-! ### C9 -/

/-- C9: if the block render succeeds but the number of results differs
from `Count()`, the worker panics (modelled by `none`) and emits nothing
on the reply channel; the mismatch is never surfaced as a per-tile
error.  (When the metatile rectangle is inverted the worker panics even
earlier, inside `coord.Count()`.) -/
theorem c9_count_mismatch (env : MetaRenderEnv) (coord : MetaTileCoord)
    (results : List TileFetchResult)
    (hok : RenderMetaTile env coord = Except.ok results)
    (hlen : results.length ≠ coord.Count) :
    processRequestMeta env coord = none := by
  by_cases hguard : coord.MaxX < coord.MinX ∨ coord.MaxY < coord.MinY
  · simp [processRequestMeta, hguard]
  · have hCW : coord.Count < W := Nat.mod_lt _ W_pos
    have hne : (results.length : Int) ≠ intOfUint64 coord.Count := by
      unfold intOfUint64
      split
      · omega
      · rw [W_val] at hCW ⊢
        omega
    simp [processRequestMeta, hguard, hok, hne]

/-- C9 witness: with a successful block render that yields zero slices
for a metatile whose `Count()` is 2 (the `int(xSize)` conversion skips
the slicing loop), the worker panics and emits nothing. -/
theorem c9_witness :
    RenderMetaTile ⟨Except.ok [], fun _ => Except.ok (), true, fun _ _ => Except.ok []⟩
        ⟨0, 0, 2 ^ 63, 1, 0, false, ""⟩ = Except.ok [] ∧
    ([] : List TileFetchResult).length ≠
      (⟨0, 0, 2 ^ 63, 1, 0, false, ""⟩ : MetaTileCoord).Count ∧
    processRequestMeta ⟨Except.ok [], fun _ => Except.ok (), true, fun _ _ => Except.ok []⟩
        ⟨0, 0, 2 ^ 63, 1, 0, false, ""⟩ = none :=
  ⟨by decide, by decide,
    c9_count_mismatch _ _ [] (by decide) (by decide)⟩

/-! ### C10 -/

/-- Every result in a successful `RenderMetaTile` output satisfies the
exclusivity invariant: the 1×1 fast path pairs bytes with a nil error,
and each slicing-loop result pairs either the complete encoder output
with a nil error or a nil buffer with the encoder's error. -/
theorem renderMetaTile_ok_exclusive (env : MetaRenderEnv) (c : MetaTileCoord)
    (results : List TileFetchResult)
    (hok : RenderMetaTile env c = Except.ok results) :
    ∀ r ∈ results, exclusiveOk r := by
  intro r hr
  simp only [RenderMetaTile] at hok
  by_cases hguard : (c.setTMS false).MaxX < (c.setTMS false).MinX ∨
      (c.setTMS false).MaxY < (c.setTMS false).MinY
  · rw [if_pos hguard] at hok
    exact absurd hok (by simp)
  · rw [if_neg hguard] at hok
    rcases hrend : env.render with e | blob <;> rw [hrend] at hok <;> simp only at hok
    · exact absurd hok (by simp)
    · by_cases h11 : (c.setTMS false).XSize = 1 ∧ (c.setTMS false).YSize = 1
      · rw [if_pos h11] at hok
        injection hok with hok
        subst hok
        simp only [List.mem_singleton] at hr
        subst hr
        exact Or.inr rfl
      · rw [if_neg h11] at hok
        rcases hdec : env.decode blob with e | u <;> rw [hdec] at hok <;> simp only at hok
        · exact absurd hok (by simp)
        · by_cases hsub : env.hasSubImage = true
          · rw [if_neg (by simp [hsub])] at hok
            injection hok with hok
            subst hok
            simp only [List.mem_flatMap, List.mem_map, List.mem_range] at hr
            obtain ⟨x, _, y, _, hxy⟩ := hr
            rcases henc : env.encodeTile x y with e | b <;> rw [henc] at hxy <;>
              simp only at hxy <;> subst hxy
            · exact Or.inl rfl
            · exact Or.inr rfl
          · rw [if_pos (by simp [hsub])] at hok
            exact absurd hok (by simp)

/-- Every list of results `processRequestMeta` actually emits satisfies
the exclusivity invariant: the error-replication loop pairs nil bytes
with the error, and the success path forwards `RenderMetaTile` output. -/
theorem processRequestMeta_exclusive (env : MetaRenderEnv) (c : MetaTileCoord)
    (lst : List TileFetchResult)
    (hsome : processRequestMeta env c = some lst) :
    ∀ r ∈ lst, exclusiveOk r := by
  intro r hr
  simp only [processRequestMeta] at hsome
  by_cases hguard : c.MaxX < c.MinX ∨ c.MaxY < c.MinY
  · rw [if_pos hguard] at hsome
    exact absurd hsome (by simp)
  · rw [if_neg hguard] at hsome
    rcases hrmt : RenderMetaTile env c with e | results <;> rw [hrmt] at hsome <;>
      simp only at hsome
    · injection hsome with hsome
      subst hsome
      simp only [List.mem_flatMap, List.mem_map, List.mem_range] at hr
      obtain ⟨x, _, y, _, hxy⟩ := hr
      subst hxy
      exact Or.inl rfl
    · by_cases hlen : (results.length : Int) ≠ intOfUint64 c.Count
      · rw [if_pos hlen] at hsome
        exact absurd hsome (by simp)
      · rw [if_neg hlen] at hsome
        injection hsome with hsome
        subst hsome
        exact renderMetaTile_ok_exclusive env c results hrmt r hr

/-- The result a cache fetch delivers always has a nil error in the
modelled (driver-failure-free) runs — both the miss branch and the found
branch build the result with `Error := none`. -/
theorem fetch_error_none (m : TileDb) (rc : TileCoord) :
    (m.fetch rc).Error = none := by
  simp only [TileDb.fetch]
  split <;> rfl

/-- C10: every `TileFetchResult` delivered on a reply channel — by the
single-tile render path, by the metatile slicing path (both the raw
`RenderMetaTile` output and whatever `processRequestMeta` forwards or
synthesizes), and by the cache fetch path — has either nil bytes or a
nil error, never both a present blob and a present error. -/
theorem c10_result_exclusivity (coord : TileCoord) (blob : Option (List Nat))
    (err : Option String) (env : MetaRenderEnv) (c : MetaTileCoord)
    (results lst : List TileFetchResult) (m : TileDb) (rc : TileCoord)
    (hok : RenderMetaTile env c = Except.ok results)
    (hsome : processRequestMeta env c = some lst) :
    exclusiveOk (processRequestTile coord blob err) ∧
    (∀ r ∈ results, exclusiveOk r) ∧
    (∀ r ∈ lst, exclusiveOk r) ∧
    exclusiveOk (m.fetch rc) := by
  refine ⟨?_, renderMetaTile_ok_exclusive env c results hok,
    processRequestMeta_exclusive env c lst hsome, Or.inr (fetch_error_none m rc)⟩
  cases err
  · exact Or.inr rfl
  · exact Or.inl rfl

/-- C10 witness: the theorem applied to a rendered single tile, a 1×1
metatile render, and a fetch against an empty cache. -/
theorem c10_witness :
    exclusiveOk (processRequestTile ⟨0, 0, 0, false, ""⟩ (some [1]) none) ∧
    exclusiveOk (⟨⟨0, 0, 0, false, ""⟩, some [7], none⟩ : TileFetchResult) ∧
    exclusiveOk (TileDb.fetch ⟨[], [], []⟩ ⟨0, 0, 1, false, ""⟩) := by
  have h := c10_result_exclusivity ⟨0, 0, 0, false, ""⟩ (some [1]) none
    ⟨Except.ok [7], fun _ => Except.ok (), true, fun _ _ => Except.ok []⟩
    ⟨0, 0, 0, 0, 0, false, ""⟩
    [⟨⟨0, 0, 0, false, ""⟩, some [7], none⟩] [⟨⟨0, 0, 0, false, ""⟩, some [7], none⟩]
    ⟨[], [], []⟩ ⟨0, 0, 1, false, ""⟩ (by decide) (by decide)
  exact ⟨h.1, h.2.1 _ (by decide), h.2.2.2⟩

/-! ### C8 -/

/-- Appending a request to the queue of its layer (the channel-send step
of an accepted `SubmitRequest`) is visible through `find?`. -/
theorem find?_enqueue (s : String) (r : MultiplexReq) :
    ∀ (L : List (String × List MultiplexReq)) (q0 : List MultiplexReq),
      L.find? (fun p => p.1 == s) = some (s, q0) →
      (L.map fun p => if p.1 == s then (p.1, p.2 ++ [r]) else p).find?
          (fun p => p.1 == s) = some (s, q0 ++ [r]) := by
  intro L
  induction L with
  | nil => intro q0 h; simp at h
  | cons hd tl ih =>
    intro q0 h
    rcases hd with ⟨name, q⟩
    cases hbeq : (name == s) with
    | true =>
      rw [List.find?_cons] at h
      simp only [hbeq] at h
      injection h with h
      injection h with h1 h2
      subst h1
      subst h2
      simp [List.find?_cons, hbeq]
    | false =>
      rw [List.find?_cons] at h
      simp only [hbeq] at h
      simp only [List.map_cons, List.find?_cons, hbeq, Bool.false_eq_true, if_false]
      exact ih q0 h

/-- C8: `SubmitRequest` returns true exactly when a queue is registered
under the request's layer name; when it is, the request is appended to
that layer's queue; when it is not, the multiplexer state is unchanged
and the request is dropped — it reaches no queue, so no worker ever
writes to its reply channel. -/
theorem c8_submit_request (l : LayerMultiplex) (r : MultiplexReq) :
    ((l.SubmitRequest r).2 = true ↔
      (l.layerChans.any fun p => p.1 == r.layer) = true) ∧
    ((l.layerChans.any fun p => p.1 == r.layer) = false →
      l.SubmitRequest r = (l, false)) ∧
    (∀ q0, l.layerChans.find? (fun p => p.1 == r.layer) = some (r.layer, q0) →
      (l.SubmitRequest r).1.layerChans.find? (fun p => p.1 == r.layer) =
        some (r.layer, q0 ++ [r])) := by
  refine ⟨?_, ?_, ?_⟩
  · rcases hf : l.layerChans.find? (fun p => p.1 == r.layer) with _ | p
    · rw [List.find?_eq_none] at hf
      simp only [LayerMultiplex.SubmitRequest]
      rw [List.find?_eq_none.mpr hf]
      simp only [List.any_eq_true]
      constructor
      · intro h; exact absurd h (by simp)
      · rintro ⟨x, hx, hpx⟩; exact absurd hpx (hf x hx)
    · simp only [LayerMultiplex.SubmitRequest, hf]
      simp only [true_iff]
      rw [List.any_eq_true]
      exact ⟨p, @List.mem_of_find?_eq_some _ (fun q => q.1 == r.layer) p l.layerChans hf,
        @List.find?_some _ (fun q => q.1 == r.layer) p l.layerChans hf⟩
  · intro hnone
    have hf : l.layerChans.find? (fun p => p.1 == r.layer) = none := by
      rw [List.find?_eq_none]
      intro x hx
      simp only [List.any_eq_false] at hnone
      exact hnone x hx
    simp [LayerMultiplex.SubmitRequest, hf]
  · intro q0 hq
    simp only [LayerMultiplex.SubmitRequest, hq]
    exact find?_enqueue r.layer r l.layerChans q0 hq

/-- C8 witness: the theorem applied to a multiplexer with layers `a`, `b`
and requests for the registered layer `a` and the unregistered `c`. -/
theorem c8_witness :
    ((⟨[("a", []), ("b", [])]⟩ : LayerMultiplex).SubmitRequest ⟨"a", 7⟩).2 = true ∧
    (⟨[("a", []), ("b", [])]⟩ : LayerMultiplex).SubmitRequest ⟨"c", 7⟩ =
      (⟨[("a", []), ("b", [])]⟩, false) ∧
    ((⟨[("a", []), ("b", [])]⟩ : LayerMultiplex).SubmitRequest
        ⟨"a", 7⟩).1.layerChans.find? (fun p => p.1 == "a") = some ("a", [⟨"a", 7⟩]) := by
  refine ⟨?_, ?_, ?_⟩
  · exact (c8_submit_request ⟨[("a", []), ("b", [])]⟩ ⟨"a", 7⟩).1.mpr (by decide)
  · exact (c8_submit_request ⟨[("a", []), ("b", [])]⟩ ⟨"c", 7⟩).2.1 (by decide)
  · exact (c8_submit_request ⟨[("a", []), ("b", [])]⟩ ⟨"a", 7⟩).2.2 [] (by decide)

/-! ### C6 -/

/-- C6: with a cache configured, a cache reply carrying bytes is written
back to the client directly — no multiplexer submission and no cache
insert; a cache reply without bytes causes the original request to be
submitted, after which a rendered reply is written to the client and
only afterwards queued for cache insertion, while a renderer reply
without bytes yields a not-found response and no insert. -/
theorem c6_serve_tile (tc : TileCoord) (cacheReply renderReply : TileFetchResult) :
    (∀ b, cacheReply.BlobPNG = some b →
      ServeTileRequest true tc cacheReply renderReply =
        [ServeEvent.cacheFetch tc, ServeEvent.writePng b]) ∧
    (cacheReply.BlobPNG = none →
      (∀ b, renderReply.BlobPNG = some b →
        ServeTileRequest true tc cacheReply renderReply =
          [ServeEvent.cacheFetch tc, ServeEvent.submit tc, ServeEvent.writePng b,
           ServeEvent.cacheInsert renderReply]) ∧
      (renderReply.BlobPNG = none →
        ServeTileRequest true tc cacheReply renderReply =
          [ServeEvent.cacheFetch tc, ServeEvent.submit tc, ServeEvent.notFound])) := by
  constructor
  · intro b hb
    simp [ServeTileRequest, hb]
  · intro hmiss
    constructor
    · intro b hb
      simp [ServeTileRequest, hmiss, hb]
    · intro hb
      simp [ServeTileRequest, hmiss, hb]

/-- C6 witness: the theorem applied to a concrete hit, a concrete miss
followed by a successful render, and a concrete miss followed by a
failed render. -/
theorem c6_witness :
    ServeTileRequest true ⟨1, 2, 3, false, "a"⟩
        ⟨⟨1, 2, 3, false, "a"⟩, some [5], none⟩ ⟨⟨1, 2, 3, false, "a"⟩, some [6], none⟩ =
      [ServeEvent.cacheFetch ⟨1, 2, 3, false, "a"⟩, ServeEvent.writePng [5]] ∧
    ServeTileRequest true ⟨1, 2, 3, false, "a"⟩
        ⟨⟨1, 2, 3, false, "a"⟩, none, none⟩ ⟨⟨1, 2, 3, false, "a"⟩, some [6], none⟩ =
      [ServeEvent.cacheFetch ⟨1, 2, 3, false, "a"⟩, ServeEvent.submit ⟨1, 2, 3, false, "a"⟩,
       ServeEvent.writePng [6],
       ServeEvent.cacheInsert ⟨⟨1, 2, 3, false, "a"⟩, some [6], none⟩] ∧
    ServeTileRequest true ⟨1, 2, 3, false, "a"⟩
        ⟨⟨1, 2, 3, false, "a"⟩, none, none⟩ ⟨⟨1, 2, 3, false, "a"⟩, none, some "e"⟩ =
      [ServeEvent.cacheFetch ⟨1, 2, 3, false, "a"⟩, ServeEvent.submit ⟨1, 2, 3, false, "a"⟩,
       ServeEvent.notFound] := by
  refine ⟨?_, ?_, ?_⟩
  · exact (c6_serve_tile ⟨1, 2, 3, false, "a"⟩ ⟨⟨1, 2, 3, false, "a"⟩, some [5], none⟩
      ⟨⟨1, 2, 3, false, "a"⟩, some [6], none⟩).1 [5] rfl
  · exact ((c6_serve_tile ⟨1, 2, 3, false, "a"⟩ ⟨⟨1, 2, 3, false, "a"⟩, none, none⟩
      ⟨⟨1, 2, 3, false, "a"⟩, some [6], none⟩).2 rfl).1 [6] rfl
  · exact ((c6_serve_tile ⟨1, 2, 3, false, "a"⟩ ⟨⟨1, 2, 3, false, "a"⟩, none, none⟩
      ⟨⟨1, 2, 3, false, "a"⟩, none, some "e"⟩).2 rfl).2 rfl

/-! ### TileDb structural lemmas -/

theorem ensureLayer_blobs (m : TileDb) (l : String) :
    (m.ensureLayer l).blobs = m.blobs := by
  unfold TileDb.ensureLayer
  split <;> rfl

theorem ensureLayer_tiles (m : TileDb) (l : String) :
    (m.ensureLayer l).tiles = m.tiles := by
  unfold TileDb.ensureLayer
  split <;> rfl

theorem lookupLayer_with_tiles (m : TileDb) (t) (lx : String) :
    TileDb.lookupLayer { m with tiles := t } lx = m.lookupLayer lx := rfl

theorem findBlob_with_tiles (m : TileDb) (t) (s : List Nat) :
    TileDb.findBlob { m with tiles := t } s = m.findBlob s := rfl

theorem ensureLayer_lookup (m : TileDb) (l : String) :
    ∃ v, (m.ensureLayer l).lookupLayer l = some v := by
  unfold TileDb.ensureLayer
  by_cases h : (m.lookupLayer l).isSome
  · rw [if_pos h]
    exact Option.isSome_iff_exists.mp h
  · rw [if_neg h]
    refine ⟨m.layers.length + 1, ?_⟩
    have hf : m.layers.find? (fun p => p.1 == l) = none := by
      rcases hx : m.layers.find? (fun p => p.1 == l) with _ | p
      · exact hx
      · exact absurd (by simp [TileDb.lookupLayer, hx]) h
    simp [TileDb.lookupLayer, List.find?_append, hf]

theorem find?_upsertTile (ts : List ((Nat × Nat × Nat × Nat) × List Nat))
    (k : Nat × Nat × Nat × Nat) (s : List Nat) :
    (upsertTile ts k s).find? (fun p => p.1 == k) = some (k, s) := by
  unfold upsertTile
  rw [List.find?_append]
  have h1 : (ts.filter fun p => ¬ p.1 == k).find? (fun p => p.1 == k) = none := by
    rw [List.find?_eq_none]
    intro x hx
    rw [List.mem_filter] at hx
    simpa using hx.2
  rw [h1]
  simp [List.find?]

theorem upsertTile_idem (ts : List ((Nat × Nat × Nat × Nat) × List Nat))
    (k : Nat × Nat × Nat × Nat) (s : List Nat) :
    upsertTile (upsertTile ts k s) k s = upsertTile ts k s := by
  unfold upsertTile
  rw [List.filter_append, List.filter_filter]
  simp

/-! ### C3 -/

/-- C3 (amended): a fetch whose tile record exists but whose referenced
blob row is absent returns a plain miss — nil bytes AND nil error.  The
single nested SQL query collapses a dangling checksum and a missing tile
record into the same zero-row outcome (`sql.ErrNoRows`), so the
integrity violation is never surfaced; the error field is reserved for
genuine driver/scan failures. -/
theorem c3_dangling_blob_is_miss (m : TileDb) (rc : TileCoord) (lid : Nat) (s : List Nat)
    (hl : m.lookupLayer (defaultLayer (rc.setTMS true).Layer) = some lid)
    (ht : (m.tiles.find? fun p =>
      p.1 == (lid, (rc.setTMS true).Zoom, (rc.setTMS true).X, (rc.setTMS true).Y)).map
      (·.2) = some s)
    (hb : m.findBlob s = none) :
    m.fetch rc = { Coord := rc.setTMS true, BlobPNG := none, Error := none } := by
  simp only [TileDb.fetch, hl, ht, hb]

/-- C3 counterexample: a state whose `layered_tiles` row points at the
checksum of `[1,2,3]` while `tile_blobs` is empty; fetching that
coordinate yields nil bytes and a nil error — indistinguishable from a
miss — although the tile record exists and its blob is absent. -/
theorem c3_counterexample :
    (TileDb.fetch ⟨[("default", 1)], [((1, 0, 0, 0), checksum [1, 2, 3])], []⟩
        ⟨0, 0, 0, true, ""⟩).BlobPNG = none ∧
    (TileDb.fetch ⟨[("default", 1)], [((1, 0, 0, 0), checksum [1, 2, 3])], []⟩
        ⟨0, 0, 0, true, ""⟩).Error = none ∧
    (⟨[("default", 1)], [((1, 0, 0, 0), checksum [1, 2, 3])], []⟩ : TileDb).tiles.find?
        (fun p => p.1 == (1, 0, 0, 0)) = some ((1, 0, 0, 0), checksum [1, 2, 3]) ∧
    (⟨[("default", 1)], [((1, 0, 0, 0), checksum [1, 2, 3])], []⟩ : TileDb).findBlob
        (checksum [1, 2, 3]) = none := by
  decide

/-- C3 witness: the amended theorem applied to the dangling-checksum
state. -/
theorem c3_witness :
    TileDb.fetch ⟨[("default", 1)], [((1, 0, 0, 0), checksum [1, 2, 3])], []⟩
        ⟨0, 0, 0, true, ""⟩ =
      { Coord := ⟨0, 0, 0, true, ""⟩, BlobPNG := none, Error := none } := by
  have h := c3_dangling_blob_is_miss
    ⟨[("default", 1)], [((1, 0, 0, 0), checksum [1, 2, 3])], []⟩
    ⟨0, 0, 0, true, ""⟩ 1 (checksum [1, 2, 3]) (by decide) (by decide) (by decide)
  rw [h]
  decide

/-! ### C4 -/

/-- An `insert` leaves, under the (defaulted) layer's id, a tile record
keyed by the TMS-toggled coordinate and carrying the content digest. -/
theorem insert_tiles_spec (m : TileDb) (i : TileFetchResult) :
    ∃ lid, (m.insert i).lookupLayer (defaultLayer (i.Coord.setTMS true).Layer) = some lid ∧
      ((m.insert i).tiles.find? fun p =>
        p.1 == (lid, (i.Coord.setTMS true).Zoom, (i.Coord.setTMS true).X,
          (i.Coord.setTMS true).Y)).map (·.2) = some (checksum (i.BlobPNG.getD [])) := by
  simp only [TileDb.insert]
  obtain ⟨lid, hlid⟩ := ensureLayer_lookup
    (if m.blobExists (checksum (i.BlobPNG.getD [])) then m
      else { m with blobs := m.blobs ++ [(checksum (i.BlobPNG.getD []), i.BlobPNG)] })
    (defaultLayer (i.Coord.setTMS true).Layer)
  refine ⟨lid, ?_, ?_⟩
  · rw [lookupLayer_with_tiles]
    exact hlid
  · rw [hlid]
    simp only [Option.getD_some]
    rw [find?_upsertTile]
    rfl

/-- If any of a list of Booleans holds, `find?` yields something. -/
theorem find?_isSome_of_any {α : Type} (l : List α) (p : α → Bool)
    (h : l.any p = true) : ∃ q, l.find? p = some q := by
  induction l with
  | nil => simp at h
  | cons a t ih =>
    cases hpa : p a with
    | true => exact ⟨a, by rw [List.find?_cons, hpa]⟩
    | false =>
      simp only [List.any_cons, hpa, Bool.false_or] at h
      obtain ⟨q, hq⟩ := ih h
      exact ⟨q, by rw [List.find?_cons, hpa]; exact hq⟩

/-- After inserting a result that carries bytes, the blob table answers
for the content digest with those bytes (whether the row pre-existed in
a well-formed table or was freshly appended). -/
theorem insert_findBlob (m : TileDb) (i : TileFetchResult) (b : List Nat)
    (hbytes : i.BlobPNG = some b) (hwf : blobWF m) :
    (m.insert i).findBlob (checksum (i.BlobPNG.getD [])) = some (some b) := by
  have hsb : checksum (i.BlobPNG.getD []) = b := by rw [hbytes]; rfl
  simp only [TileDb.insert]
  rw [findBlob_with_tiles]
  have hens : ∀ (X : TileDb) (lx : String) (sx : List Nat),
      (X.ensureLayer lx).findBlob sx = X.findBlob sx := by
    intro X lx sx
    unfold TileDb.findBlob
    rw [ensureLayer_blobs]
  rw [hens]
  by_cases hex : m.blobExists (checksum (i.BlobPNG.getD []))
  · rw [if_pos hex]
    obtain ⟨q, hq⟩ := find?_isSome_of_any m.blobs _ hex
    have hq1 : q.1 = checksum (i.BlobPNG.getD []) := by
      have := @List.find?_some _ (fun p => p.1 == checksum (i.BlobPNG.getD [])) q m.blobs hq
      simpa using this
    have hq2 : q.2 = some q.1 :=
      hwf q (@List.mem_of_find?_eq_some _ (fun p => p.1 == checksum (i.BlobPNG.getD []))
        q m.blobs hq)
    unfold TileDb.findBlob
    rw [hq]
    simp [hq2, hq1, hsb]
  · rw [if_neg hex]
    unfold TileDb.findBlob
    have hnone : (m.blobs.find? fun p => p.1 == checksum (i.BlobPNG.getD [])) = none := by
      rw [List.find?_eq_none]
      intro x hx hpx
      exact hex (List.any_eq_true.mpr ⟨x, hx, hpx⟩)
    simp only [List.find?_append, hnone, Option.none_or]
    rw [List.find?_cons]
    simp only [beq_self_eq_true]
    rw [hbytes]
    rfl

/-- The `Coord` field of every delivered fetch result is the request
coordinate toggled to the TMS scheme (the local copy is toggled before
the result is built, and never toggled back). -/
theorem fetch_coord (m : TileDb) (rc : TileCoord) :
    (m.fetch rc).Coord = rc.setTMS true := by
  simp only [TileDb.fetch]
  split <;> rfl

/-- C4 (amended): every cache insert and fetch converts the (value-copied)
coordinate to the TMS row convention before touching storage — an XYZ
input with `Y < 2^Zoom` is stored under row `2^Zoom − Y − 1` — and the
two paths toggle identically, so fetching with the caller's original
coordinate returns the bytes that insert stored; the caller's own request
variable is untouched (pass-by-value), but the `Coord` field of the
`TileFetchResult` a fetch delivers carries the TMS-toggled coordinate,
not the caller's original scheme: no toggle-back occurs on the reply. -/
theorem c4_scheme_toggle (m : TileDb) (i : TileFetchResult) (rc : TileCoord) (b : List Nat)
    (hxyz : i.Coord.Tms = false) (hz : i.Coord.Zoom < 64)
    (hy : i.Coord.Y < 2 ^ i.Coord.Zoom)
    (hbytes : i.BlobPNG = some b) (hwf : blobWF m) :
    (∃ lid, (m.insert i).lookupLayer (defaultLayer i.Coord.Layer) = some lid ∧
      ((m.insert i).tiles.find? fun p =>
        p.1 == (lid, i.Coord.Zoom, i.Coord.X, 2 ^ i.Coord.Zoom - i.Coord.Y - 1)).map
        (·.2) = some (checksum (i.BlobPNG.getD []))) ∧
    (m.insert i).fetch i.Coord =
      { Coord := i.Coord.setTMS true, BlobPNG := some b, Error := none } ∧
    (m.fetch rc).Coord = rc.setTMS true := by
  have hpw : 2 ^ i.Coord.Zoom < W := by
    have := Nat.pow_lt_pow_right (by norm_num : 1 < 2) hz
    simpa [W] using this
  have hco : i.Coord.setTMS true =
      ⟨i.Coord.X, 2 ^ i.Coord.Zoom - i.Coord.Y - 1, i.Coord.Zoom, true, i.Coord.Layer⟩ := by
    unfold TileCoord.setTMS
    rw [if_pos (by rw [hxyz]; exact Bool.false_ne_true)]
    rw [Nat.mod_eq_of_lt hpw, rowFlip_eq hpw hy]
  refine ⟨?_, ?_, fetch_coord m rc⟩
  · obtain ⟨lid, hlid, hfind⟩ := insert_tiles_spec m i
    rw [hco] at hlid hfind
    exact ⟨lid, hlid, hfind⟩
  · obtain ⟨lid, hlid, hfind⟩ := insert_tiles_spec m i
    simp only [TileDb.fetch]
    rw [hlid]
    simp only [hfind, insert_findBlob m i b hbytes hwf]

/-- C4 counterexample: fetching `(X=0, Y=0, Zoom=1)` in the XYZ scheme
from an empty cache delivers a result whose `Coord` is the TMS-toggled
`(X=0, Y=1, Zoom=1, Tms=true)` — not the caller's original coordinate,
contradicting the claim that the delivered `Coord` is in the caller's
scheme. -/
theorem c4_counterexample :
    (TileDb.fetch ⟨[], [], []⟩ ⟨0, 0, 1, false, ""⟩).Coord = ⟨0, 1, 1, true, ""⟩ ∧
    ¬ (TileDb.fetch ⟨[], [], []⟩ ⟨0, 0, 1, false, ""⟩).Coord = ⟨0, 0, 1, false, ""⟩ := by
  decide

/-- C4 witness: inserting the rendered tile `(3,4)@5` (XYZ) into an empty
cache and fetching it back with the original coordinate returns the
bytes; the delivered coordinate is the TMS-toggled `(3,27)@5`. -/
theorem c4_witness :
    (TileDb.insert ⟨[], [], []⟩ ⟨⟨3, 4, 5, false, "mylayer"⟩, some [7, 8], none⟩).fetch
        ⟨3, 4, 5, false, "mylayer"⟩ =
      { Coord := (⟨3, 4, 5, false, "mylayer"⟩ : TileCoord).setTMS true,
        BlobPNG := some [7, 8], Error := none } ∧
    (⟨3, 4, 5, false, "mylayer"⟩ : TileCoord).setTMS true = ⟨3, 27, 5, true, "mylayer"⟩ ∧
    (TileDb.fetch ⟨[], [], []⟩ ⟨0, 0, 1, false, ""⟩).Coord =
      (⟨0, 0, 1, false, ""⟩ : TileCoord).setTMS true := by
  have h := c4_scheme_toggle ⟨[], [], []⟩ ⟨⟨3, 4, 5, false, "mylayer"⟩, some [7, 8], none⟩
    ⟨0, 0, 1, false, ""⟩ [7, 8] rfl (by decide) (by decide) rfl
    (by intro p hp; exact absurd hp (List.not_mem_nil p))
  exact ⟨h.2.1, by decide, h.2.2⟩

/-! ### C5 -/

theorem blobs_with_tiles (m : TileDb) (t) :
    ({ m with tiles := t } : TileDb).blobs = m.blobs := rfl

theorem tiles_with_tiles (m : TileDb) (t) :
    ({ m with tiles := t } : TileDb).tiles = t := rfl

/-- The blob table after an `insert`: unchanged when a row with the
content digest already exists, otherwise extended by exactly one row. -/
theorem insert_blobs (m : TileDb) (x : TileFetchResult) :
    (m.insert x).blobs =
      if m.blobExists (checksum (x.BlobPNG.getD [])) then m.blobs
      else m.blobs ++ [(checksum (x.BlobPNG.getD []), x.BlobPNG)] := by
  simp only [TileDb.insert]
  by_cases hex : m.blobExists (checksum (x.BlobPNG.getD []))
  · rw [if_pos hex, if_pos hex, blobs_with_tiles, ensureLayer_blobs]
  · rw [if_neg hex, if_neg hex, blobs_with_tiles, ensureLayer_blobs]

/-- The tile table after an `insert` is an upsert of the previous tile
table at the toggled key. -/
theorem insert_tiles_upsert (m : TileDb) (x : TileFetchResult) :
    ∃ lid, (m.insert x).lookupLayer (defaultLayer ((x.Coord.setTMS true).Layer)) = some lid ∧
      ∃ T0, (m.insert x).tiles = upsertTile T0
        (lid, (x.Coord.setTMS true).Zoom, (x.Coord.setTMS true).X, (x.Coord.setTMS true).Y)
        (checksum (x.BlobPNG.getD [])) := by
  simp only [TileDb.insert]
  obtain ⟨lid, hlid⟩ := ensureLayer_lookup
    (if m.blobExists (checksum (x.BlobPNG.getD [])) then m
      else { m with blobs := m.blobs ++ [(checksum (x.BlobPNG.getD []), x.BlobPNG)] })
    (defaultLayer ((x.Coord.setTMS true).Layer))
  refine ⟨lid, ?_, ?_⟩
  · rw [lookupLayer_with_tiles]
    exact hlid
  · refine ⟨((if m.blobExists (checksum (x.BlobPNG.getD [])) = true then m
      else { m with blobs := m.blobs ++ [(checksum (x.BlobPNG.getD []), x.BlobPNG)] }).ensureLayer
      (defaultLayer ((x.Coord.setTMS true).Layer))).tiles, ?_⟩
    rw [tiles_with_tiles, hlid]
    rfl

/-- Unfolding of `insert` when the blob already exists and the layer is
already registered: only the tile table changes. -/
theorem insert_unfold_hit (A : TileDb) (x : TileFetchResult) (lid : Nat)
    (hex : A.blobExists (checksum (x.BlobPNG.getD [])) = true)
    (hlid : A.lookupLayer (defaultLayer ((x.Coord.setTMS true).Layer)) = some lid) :
    A.insert x =
      { A with tiles :=
          upsertTile A.tiles (lid, (x.Coord.setTMS true).Zoom, (x.Coord.setTMS true).X, (x.Coord.setTMS true).Y) (checksum (x.BlobPNG.getD [])) } := by
  simp only [TileDb.insert]
  rw [if_pos hex]
  have hens : A.ensureLayer (defaultLayer ((x.Coord.setTMS true).Layer)) = A := by
    unfold TileDb.ensureLayer
    rw [if_pos (by rw [hlid]; rfl)]
  rw [hens, hlid]
  rfl

theorem blobCount_pos_of_exists (m : TileDb) (s : List Nat)
    (h : m.blobExists s = true) : 0 < blobCount m s := by
  unfold TileDb.blobExists at h
  unfold blobCount
  rw [List.any_eq_true] at h
  obtain ⟨p, hp, hps⟩ := h
  have hmem : p ∈ m.blobs.filter fun q => q.1 == s := List.mem_filter.mpr ⟨hp, hps⟩
  exact List.length_pos.mpr (List.ne_nil_of_mem hmem)

theorem exists_of_blobCount_pos (m : TileDb) (s : List Nat)
    (h : 0 < blobCount m s) : m.blobExists s = true := by
  unfold blobCount at h
  rw [List.length_pos] at h
  obtain ⟨p, hp⟩ := List.exists_mem_of_ne_nil _ h
  rw [List.mem_filter] at hp
  exact List.any_eq_true.mpr ⟨p, hp.1, hp.2⟩

theorem blobCount_zero_of_not_exists (m : TileDb) (s : List Nat)
    (h : m.blobExists s = false) : blobCount m s = 0 := by
  unfold blobCount
  rw [List.length_eq_zero, List.filter_eq_nil_iff]
  intro a ha
  unfold TileDb.blobExists at h
  exact List.any_eq_false.mp h a ha

/-- The count of blob rows with the inserted content's digest: unchanged
on reuse, incremented by one on a fresh insert. -/
theorem blobCount_insert (m : TileDb) (x : TileFetchResult) :
    blobCount (m.insert x) (checksum (x.BlobPNG.getD [])) =
      if m.blobExists (checksum (x.BlobPNG.getD [])) then
        blobCount m (checksum (x.BlobPNG.getD []))
      else blobCount m (checksum (x.BlobPNG.getD [])) + 1 := by
  unfold blobCount
  rw [insert_blobs]
  by_cases hex : m.blobExists (checksum (x.BlobPNG.getD []))
  · rw [if_pos hex, if_pos hex]
  · rw [if_neg hex, if_neg hex, List.filter_append, List.length_append]
    simp

/-- C5 (amended): `Insert` is idempotent — running `Insert(x)` twice
leaves the layer registry, tile table and blob table identical to
running it once — and two `Insert` calls with byte-identical content
(regardless of differing coordinates) leave exactly one blob row keyed
by that content's digest, provided the table held at most one such row
before.  (Within a single `BatchInsert` this dedup does NOT hold: all
existence checks read the pre-batch table, so two new byte-identical
items produce two duplicate blob rows — see the counterexample.) -/
theorem c5_insert_dedup (m : TileDb) (x y : TileFetchResult)
    (hxy : x.BlobPNG.getD [] = y.BlobPNG.getD [])
    (hcount : blobCount m (checksum (x.BlobPNG.getD [])) ≤ 1) :
    (m.insert x).insert x = m.insert x ∧
    blobCount ((m.insert x).insert y) (checksum (x.BlobPNG.getD [])) = 1 := by
  have hcy : checksum (y.BlobPNG.getD []) = checksum (x.BlobPNG.getD []) := by rw [hxy]
  have hexA : ∀ z : TileFetchResult, checksum (z.BlobPNG.getD []) = checksum (x.BlobPNG.getD []) →
      (m.insert x).blobExists (checksum (z.BlobPNG.getD [])) = true := by
    intro z hz
    rw [hz]
    unfold TileDb.blobExists
    rw [insert_blobs]
    by_cases hex : m.blobExists (checksum (x.BlobPNG.getD []))
    · rw [if_pos hex]
      exact hex
    · rw [if_neg hex, List.any_append]
      simp
  have hA1 : blobCount (m.insert x) (checksum (x.BlobPNG.getD [])) = 1 := by
    rw [blobCount_insert m x]
    by_cases hex : m.blobExists (checksum (x.BlobPNG.getD []))
    · rw [if_pos hex]
      have h1 := blobCount_pos_of_exists m _ hex
      omega
    · rw [if_neg hex]
      rw [blobCount_zero_of_not_exists m _ (by simpa using hex)]
  constructor
  · obtain ⟨lid, hlid, T0, hT⟩ := insert_tiles_upsert m x
    rw [insert_unfold_hit (m.insert x) x lid (hexA x rfl) hlid, hT, upsertTile_idem, ← hT]
  · have hbi := blobCount_insert (m.insert x) y
    rw [hcy] at hbi
    rw [hbi, if_pos (hexA x rfl)]
    exact hA1

/-- C5 counterexample: one `BatchInsert` of two results with identical
bytes `[9]` and different coordinates into a cache whose blob table is
empty leaves TWO duplicate blob rows for that content's digest — every
existence check ran before the batch's single multi-row insert, and
`tile_blobs` has no unique constraint for `REPLACE` to act on. -/
theorem c5_counterexample :
    (TileDb.BatchInsert ⟨[("default", 1)], [], []⟩
      [⟨⟨0, 0, 0, false, ""⟩, some [9], none⟩,
       ⟨⟨1, 0, 0, false, ""⟩, some [9], none⟩]).blobs =
      [([9], some [9]), ([9], some [9])] ∧
    blobCount (TileDb.BatchInsert ⟨[("default", 1)], [], []⟩
      [⟨⟨0, 0, 0, false, ""⟩, some [9], none⟩,
       ⟨⟨1, 0, 0, false, ""⟩, some [9], none⟩]) (checksum [9]) = 2 := by
  decide

/-- C5 witness: the amended theorem applied to two results with bytes
`[9]` at differing coordinates over a fresh cache state. -/
theorem c5_witness :
    TileDb.insert (TileDb.insert ⟨[("default", 1)], [], []⟩
        ⟨⟨0, 0, 0, false, ""⟩, some [9], none⟩) ⟨⟨0, 0, 0, false, ""⟩, some [9], none⟩ =
      TileDb.insert ⟨[("default", 1)], [], []⟩ ⟨⟨0, 0, 0, false, ""⟩, some [9], none⟩ ∧
    blobCount (TileDb.insert (TileDb.insert ⟨[("default", 1)], [], []⟩
        ⟨⟨0, 0, 0, false, ""⟩, some [9], none⟩) ⟨⟨1, 0, 0, false, ""⟩, some [9], none⟩)
      (checksum [9]) = 1 := by
  have h := c5_insert_dedup ⟨[("default", 1)], [], []⟩
    ⟨⟨0, 0, 0, false, ""⟩, some [9], none⟩ ⟨⟨1, 0, 0, false, ""⟩, some [9], none⟩
    rfl (by decide)
  exact ⟨h.1, h.2⟩

end Maptiles
